import Mathlib

/-!
Verification of the battle-state tracker and opponent-inference engine of a
Pokémon Showdown agent (source: `fp/battle_modifier.py`).

Embedding conventions:
* Python functions become pure Lean functions; in-place mutation becomes
  explicit state passing.
* Python `float` arithmetic is modelled as exact rational arithmetic (`ℚ`);
  Python `int(x)` truncation and `round(x, n)` (round-half-even) are modelled
  exactly on `ℚ`.
* External collaborators that are not part of the embedded sources (the
  damage-roll engine, the static game-data tables `all_move_json` / `pokedex`,
  the helper `normalize_name`, the dataset stores) are passed in as explicit
  function parameters.
* Python string operations (`split`, `strip`, `startswith`, `endswith`,
  substring `in`) are re-implemented structurally on `List Char` so that the
  kernel can evaluate them.
-/

namespace FoulPlay

/-- Helper for `strSplitOn`: splits a char list at every occurrence of `sep`,
`acc` being the (reversed) chars of the current field. -/
def splitCharAux (sep : Char) : List Char → List Char → List (List Char)
  | [], acc => [acc.reverse]
  | c :: cs, acc =>
    if c = sep then acc.reverse :: splitCharAux sep cs []
    else splitCharAux sep cs (c :: acc)

/-- Python `s.split(sep)` for a one-character separator (e.g. `line.split("|")`). -/
def strSplitOn (s : String) (sep : Char) : List String :=
  (splitCharAux sep s.data []).map (fun cs => String.mk cs)

/-- Whitespace test used by Python `str.strip()` (the protocol only ever
carries plain spaces, tabs and line ends). -/
def isPySpace (c : Char) : Bool :=
  c = ' ' || c = '\t' || c = '\n' || c = '\r'

/-- Python `s.strip()`. -/
def strStrip (s : String) : String :=
  String.mk (((s.data.dropWhile isPySpace).reverse.dropWhile isPySpace).reverse)

/-- Python `s.startswith(p)`. -/
def strStartsWith (s p : String) : Bool :=
  p.data.isPrefixOf s.data

/-- Python `s.endswith(p)`. -/
def strEndsWith (s p : String) : Bool :=
  p.data.reverse.isPrefixOf s.data.reverse

/-- Helper for `strContainsSub`: substring search on char lists. -/
def listContainsSub (pat : List Char) : List Char → Bool
  | [] => pat.isEmpty
  | c :: cs => pat.isPrefixOf (c :: cs) || listContainsSub pat cs

/-- Python `pat in s` (substring containment). -/
def strContainsSub (s pat : String) : Bool :=
  listContainsSub pat.data s.data

/-- Python `int(q)`: truncation toward zero. -/
def pyInt (q : ℚ) : Int :=
  if 0 ≤ q then ⌊q⌋ else -⌊-q⌋

/-- Round a rational to the nearest integer, ties to the even integer
(the rounding used by Python's built-in `round`). -/
def roundHalfEven (q : ℚ) : Int :=
  if q - (⌊q⌋ : ℚ) < 1 / 2 then ⌊q⌋
  else if 1 / 2 < q - (⌊q⌋ : ℚ) then ⌊q⌋ + 1
  else if ⌊q⌋ % 2 = 0 then ⌊q⌋ else ⌊q⌋ + 1

/-- Python `round(x, n)` modelled exactly on `ℚ`. -/
def pyRound (x : ℚ) (n : ℕ) : ℚ :=
  (roundHalfEven (x * (10 : ℚ) ^ n) : ℚ) / (10 : ℚ) ^ n

/-- Sentinel for a not-yet-inferred item.  Modelled from the spec (§3.1): the
opponent's `item == UNKNOWN` sentinel means "not yet inferred" (the constants
module itself is not among the embedded sources). -/
def UNKNOWN_ITEM : String := "unknown"

/-! ### Boost handlers (`setboost`, `boost`, `unboost`) — claim C6 -/

/-- Value of `constants.MAX_BOOSTS`.  Modelled from the spec (§3.2): boost
values live in `[-6, 6]` (the constants module is not among the embedded
sources). -/
def MAX_BOOSTS : Int := 6

/-- The slice of Pokémon state the boost handlers touch: the per-stat boost
table `pkmn.boosts` (a Python `defaultdict(int)`), modelled as a total map. -/
structure BoostState where
  boosts : String → Int

/-- Handler for `-setboost`: `pkmn.boosts[stat] = amount` — the parsed amount
is assigned directly, with no clamping. -/
def setboost (p : BoostState) (stat : String) (amount : Int) : BoostState :=
  { p with boosts := fun s => if s = stat then amount else p.boosts s }

/-- Handler for `-boost`:
`pkmn.boosts[stat] = min(pkmn.boosts[stat] + amount, constants.MAX_BOOSTS)`. -/
def boost (p : BoostState) (stat : String) (amount : Int) : BoostState :=
  { p with boosts := fun s =>
      if s = stat then min (p.boosts stat + amount) MAX_BOOSTS else p.boosts s }

/-- Handler for `-unboost`:
`pkmn.boosts[stat] = max(pkmn.boosts[stat] - amount, -1 * constants.MAX_BOOSTS)`. -/
def unboost (p : BoostState) (stat : String) (amount : Int) : BoostState :=
  { p with boosts := fun s =>
      if s = stat then max (p.boosts stat - amount) (-1 * MAX_BOOSTS) else p.boosts s }

/-- The three boost-mutating protocol tags. -/
inductive BoostTag
  | boostT
  | unboostT
  | setboostT
deriving DecidableEq

/-- Dispatch of a `-boost` / `-unboost` / `-setboost` event to its handler,
as in the `battle_modifiers_lookup` table of `process_battle_updates`. -/
def applyBoostEvent (p : BoostState) : BoostTag → String → Int → BoostState
  | .boostT, stat, amount => boost p stat amount
  | .unboostT, stat, amount => unboost p stat amount
  | .setboostT, stat, amount => setboost p stat amount

/-- Boost value for `stat` lies in the legal interval `[-6, 6]`. -/
def boostInRange (p : BoostState) (stat : String) : Prop :=
  -MAX_BOOSTS ≤ p.boosts stat ∧ p.boosts stat ≤ MAX_BOOSTS

/-- C6 (counterexample): the claim "after handling any `-boost`, `-unboost`,
or `-setboost` protocol event with any integer amount, the boost value lies in
`[-6, 6]`" is false: a `-setboost` event with amount `7`, applied to a Pokémon
whose boosts are all `0` (in range), leaves the stat at `7`, outside the
interval — `setboost` assigns the raw amount without clamping. -/
theorem C6_counterexample :
    boostInRange ⟨fun _ => 0⟩ "attack" ∧
      ¬ boostInRange (applyBoostEvent ⟨fun _ => 0⟩ .setboostT "attack" 7) "attack" := by
  constructor
  · exact ⟨by decide, by decide⟩
  · intro h
    have h2 := h.2
    simp only [applyBoostEvent, setboost, MAX_BOOSTS] at h2
    norm_num at h2

/-- C6 (amended): `-boost` clamps from above at `6` and `-unboost` clamps from
below at `-6`, so with the non-negative amounts the protocol carries and a
prior boost in `[-6, 6]` the result stays in `[-6, 6]`; `-setboost`, however,
assigns the raw parsed amount with no clamping. -/
theorem C6_boost_clamp_amended (p : BoostState) (stat : String) (amount : Int)
    (hprior : boostInRange p stat) (hamount : 0 ≤ amount) :
    boostInRange (applyBoostEvent p .boostT stat amount) stat ∧
      boostInRange (applyBoostEvent p .unboostT stat amount) stat ∧
      (applyBoostEvent p .setboostT stat amount).boosts stat = amount := by
  obtain ⟨hlo, hhi⟩ := hprior
  simp only [boostInRange, applyBoostEvent, boost, unboost, setboost, MAX_BOOSTS,
    if_pos rfl] at *
  refine ⟨⟨?_, ?_⟩, ⟨?_, ?_⟩, rfl⟩ <;> omega

/-- C6 witness: the amended theorem applied at a concrete in-range state. -/
theorem C6_witness :
    (applyBoostEvent ⟨fun _ => 0⟩ .setboostT "speed" 2).boosts "speed" = 2 :=
  (C6_boost_clamp_amended ⟨fun _ => 0⟩ "speed" 2 ⟨by decide, by decide⟩ (by decide)).2.2

/-! ### The `weather` handler — claim C8 -/

/-- Slice of a Pokémon used by the `weather` handler. -/
structure WPkmn where
  name : String
  item : Option String
  ability : Option String
deriving DecidableEq

/-- Slice of a side (`Battler`) used by the `weather` handler. -/
structure WSide where
  name : String
  active : WPkmn
  reserve : List WPkmn
deriving DecidableEq

/-- Slice of the battle used by the `weather` handler. -/
structure WBattle where
  user : WSide
  opponent : WSide
  generation : String
  weather : String
  weather_turns_remaining : Int
  weather_source : Option String
deriving DecidableEq

/-- Value of `constants.SUN`.  Modelled from the spec (the constants module is
not among the embedded sources): normalized protocol weather names. -/
def SUN : String := "sunnyday"

/-- Value of `constants.RAIN` (modelled, see `SUN`). -/
def RAIN : String := "raindance"

/-- Value of `constants.SAND` (modelled, see `SUN`). -/
def SAND : String := "sandstorm"

/-- Value of `constants.HAIL_OR_SNOW` (modelled, see `SUN`). -/
def HAIL_OR_SNOW : List String := ["hail", "snow"]

/-- The weather name parsed by the handler:
`normalize_name(split_msg[2].split(":")[-1].strip())`. -/
def parseWeatherName (normalizeName : String → String) (split_msg : List String) : String :=
  normalizeName (strStrip ((strSplitOn (split_msg.getD 2 "") ':').getLastD ""))

/-- Side attribution of a `-weather` line (`len(split_msg) == 5` and
opponent-name containment of the final `[of] ...` field); `some true` means
the opponent's side. -/
def weatherSidePick (battle : WBattle) (split_msg : List String) : Option Bool :=
  if split_msg.length = 5 then
    if strContainsSub (split_msg.getLastD "") battle.opponent.name then some true
    else some false
  else none

/-- Project the picked side out of the battle. -/
def getWSide (battle : WBattle) (isOpp : Bool) : WSide :=
  if isOpp then battle.opponent else battle.user

/-- Label used when recording `battle.weather_source`. -/
def sideLabel (isOpp : Bool) : String :=
  if isOpp then "opponent" else "user"

/-- First phase of the handler: record `battle.weather` and
`battle.weather_source`. -/
def setWeatherFields (b : WBattle) (w : String) (src : Option String) : WBattle :=
  { b with weather := w, weather_source := src }

/-- First phase continued: dispatch of `battle.weather` / `battle.weather_source`
assignment. -/
def weatherAssign (normalizeName : String → String) (battle : WBattle)
    (split_msg : List String) : WBattle :=
  if parseWeatherName normalizeName split_msg = "none" then
    setWeatherFields battle (parseWeatherName normalizeName split_msg) none
  else
    match weatherSidePick battle split_msg with
    | some isOpp =>
        setWeatherFields battle (parseWeatherName normalizeName split_msg)
          (some (sideLabel isOpp ++ ":" ++ (getWSide battle isOpp).active.name))
    | none => { battle with weather := parseWeatherName normalizeName split_msg }

/-- Second phase: the turns-remaining branch chain (`[upkeep]` decrement,
gen3-5 permanent ability weather, the `*rock` held-item 8-turn cases, default
5 turns). -/
def weatherCountdown (battle : WBattle) (split_msg : List String)
    (weather_name : String) : WBattle :=
  if split_msg.getLastD "" = "[upkeep]" ∧ 0 < battle.weather_turns_remaining then
    { battle with weather_turns_remaining := battle.weather_turns_remaining - 1 }
  else if split_msg.getLastD "" = "[upkeep]" then battle
  else if 3 < split_msg.length ∧ battle.generation ∈ (["gen3", "gen4", "gen5"] : List String)
      ∧ strStartsWith (split_msg.getD 3 "") "[from] ability:" then
    { battle with weather_turns_remaining := -1 }
  else
    match weatherSidePick battle split_msg with
    | some isOpp =>
        if weather_name = SUN ∧ (getWSide battle isOpp).active.item = some "heatrock" then
          { battle with weather_turns_remaining := 8 }
        else if weather_name = RAIN ∧ (getWSide battle isOpp).active.item = some "damprock" then
          { battle with weather_turns_remaining := 8 }
        else if weather_name = SAND ∧ (getWSide battle isOpp).active.item = some "smoothrock" then
          { battle with weather_turns_remaining := 8 }
        else if weather_name ∈ HAIL_OR_SNOW ∧ (getWSide battle isOpp).active.item = some "icyrock" then
          { battle with weather_turns_remaining := 8 }
        else { battle with weather_turns_remaining := 5 }
    | none => { battle with weather_turns_remaining := 5 }

/-- Item the weather-extension inference attributes to the weather source. -/
def rockItemFor (weather_name : String) : String :=
  if weather_name = SUN then "heatrock"
  else if weather_name = RAIN then "damprock"
  else if weather_name = SAND then "smoothrock"
  else if weather_name ∈ HAIL_OR_SNOW then "icyrock"
  else UNKNOWN_ITEM

/-- Set the inferred `*rock` item on the first reserve Pokémon named
`pkmn_name` whose item is still the unknown sentinel (the functional image of
mutating the object `find_pokemon_in_reserves` returned). -/
def setRockItemInReserve (pkmn_name item : String) : List WPkmn → List WPkmn
  | [] => []
  | p :: ps =>
      if p.name = pkmn_name then
        (if p.item = some UNKNOWN_ITEM then { p with item := some item } else p) :: ps
      else p :: setRockItemInReserve pkmn_name item ps

/-- Weather-extension inference: if the countdown hit zero and the recorded
source is an opponent Pokémon whose item is unknown, that Pokémon is given the
matching `*rock` item. -/
def weatherRockInference (b : WBattle) (weather_name : String) : WBattle :=
  match b.weather_source with
  | none => b
  | some src =>
      if src ≠ "" ∧ strStartsWith src "opponent" then
        if b.opponent.active.name = (strSplitOn src ':').getLastD "" then
          if b.opponent.active.item = some UNKNOWN_ITEM then
            let a := { b.opponent.active with item := some (rockItemFor weather_name) }
            { b with opponent := { b.opponent with active := a } }
          else b
        else
          let r := setRockItemInReserve ((strSplitOn src ':').getLastD "")
            (rockItemFor weather_name) b.opponent.reserve
          { b with opponent := { b.opponent with reserve := r } }
      else b

/-- Third phase: `if battle.weather_turns_remaining == 0:` grant three more
turns (the weather "did not end when expected") and run the `*rock` item
inference. -/
def weatherFinalize (b : WBattle) (weather_name : String) : WBattle :=
  if b.weather_turns_remaining = 0 then
    weatherRockInference { b with weather_turns_remaining := 3 } weather_name
  else b

/-- Set the picked side's active ability. -/
def setActiveAbility (b : WBattle) (isOpp : Bool) (ability : String) : WBattle :=
  if isOpp then
    let a := { b.opponent.active with ability := some ability }
    { b with opponent := { b.opponent with active := a } }
  else
    let a := { b.user.active with ability := some ability }
    { b with user := { b.user with active := a } }

/-- Final phase: `[from] ability: ...` with a matching `[of]` field reveals
the source side's ability. -/
def weatherAbilityReveal (normalizeName : String → String) (b : WBattle)
    (split_msg : List String) : WBattle :=
  match weatherSidePick b split_msg with
  | some isOpp =>
      if 5 ≤ split_msg.length ∧ strContainsSub (split_msg.getD 4 "") (getWSide b isOpp).name then
        setActiveAbility b isOpp
          (normalizeName (strStrip ((strSplitOn (split_msg.getD 3 "") ':').getLastD "")))
      else b
  | none => b

/-- The `weather` handler (`battle_modifier.weather`), as the composition of
its four phases.  `weatherSidePick` reads only side names, which no phase
changes, so re-picking the side in later phases matches the source's single
up-front `side` binding. -/
def weatherHandler (normalizeName : String → String) (battle : WBattle)
    (split_msg : List String) : WBattle :=
  let weather_name := parseWeatherName normalizeName split_msg
  weatherAbilityReveal normalizeName
    (weatherFinalize
      (weatherCountdown (weatherAssign normalizeName battle split_msg) split_msg weather_name)
      weather_name)
    split_msg

/-- The rock-item inference never touches the countdown. -/
theorem weatherRockInference_turns (b : WBattle) (w : String) :
    (weatherRockInference b w).weather_turns_remaining = b.weather_turns_remaining := by
  unfold weatherRockInference
  repeat' split
  all_goals rfl

/-- The rock-item inference never touches the recorded weather. -/
theorem weatherRockInference_weather (b : WBattle) (w : String) :
    (weatherRockInference b w).weather = b.weather := by
  unfold weatherRockInference
  repeat' split
  all_goals rfl

/-- The ability reveal never touches the countdown. -/
theorem weatherAbilityReveal_turns (n : String → String) (b : WBattle) (s : List String) :
    (weatherAbilityReveal n b s).weather_turns_remaining = b.weather_turns_remaining := by
  unfold weatherAbilityReveal setActiveAbility
  repeat' split
  all_goals rfl

/-- The ability reveal never touches the recorded weather. -/
theorem weatherAbilityReveal_weather (n : String → String) (b : WBattle) (s : List String) :
    (weatherAbilityReveal n b s).weather = b.weather := by
  unfold weatherAbilityReveal setActiveAbility
  repeat' split
  all_goals rfl

/-- The countdown chain never touches the recorded weather. -/
theorem weatherCountdown_weather (b : WBattle) (s : List String) (w : String) :
    (weatherCountdown b s w).weather = b.weather := by
  unfold weatherCountdown
  repeat' split
  all_goals rfl

/-- After `weatherFinalize` the countdown is `3` where it had reached `0` and
is untouched otherwise; in particular it is never `0`. -/
theorem weatherFinalize_turns (b : WBattle) (w : String) :
    (weatherFinalize b w).weather_turns_remaining =
      (if b.weather_turns_remaining = 0 then 3 else b.weather_turns_remaining) := by
  unfold weatherFinalize
  split <;> simp_all [weatherRockInference_turns]

/-- The finalize phase never touches the recorded weather. -/
theorem weatherFinalize_weather (b : WBattle) (w : String) :
    (weatherFinalize b w).weather = b.weather := by
  unfold weatherFinalize
  split
  · rw [weatherRockInference_weather]
  · rfl

/-- C8: the countdown alone never clears weather.  After any `-weather` event
(i) the remaining-turns counter is never left at `0`, (ii) the recorded
weather is the event's weather name — the countdown never resets it — and
(iii) when an `[upkeep]` tick drives the counter from `1` to `0` (and no
`-weather none` was processed, since the event's own name is the active
weather), the counter is set back to three extra turns. -/
theorem C8_weather_countdown (normalizeName : String → String) (battle : WBattle)
    (split_msg : List String) :
    (weatherHandler normalizeName battle split_msg).weather_turns_remaining ≠ 0 ∧
    (weatherHandler normalizeName battle split_msg).weather =
      parseWeatherName normalizeName split_msg ∧
    (split_msg.getLastD "" = "[upkeep]" → battle.weather_turns_remaining = 1 →
      (weatherHandler normalizeName battle split_msg).weather_turns_remaining = 3) := by
  refine ⟨?_, ?_, ?_⟩
  · unfold weatherHandler
    rw [weatherAbilityReveal_turns, weatherFinalize_turns]
    split
    · decide
    · assumption
  · unfold weatherHandler
    rw [weatherAbilityReveal_weather, weatherFinalize_weather, weatherCountdown_weather]
    unfold weatherAssign
    split
    · rfl
    · split <;> rfl
  · intro hup h1
    unfold weatherHandler
    rw [weatherAbilityReveal_turns, weatherFinalize_turns]
    have hassign : (weatherAssign normalizeName battle split_msg).weather_turns_remaining
        = battle.weather_turns_remaining := by
      unfold weatherAssign
      split
      · rfl
      · split <;> rfl
    have hcd : (weatherCountdown (weatherAssign normalizeName battle split_msg) split_msg
        (parseWeatherName normalizeName split_msg)).weather_turns_remaining = 0 := by
      unfold weatherCountdown
      rw [if_pos ⟨hup, by rw [hassign, h1]; decide⟩]
      simp [hassign, h1]
    rw [hcd]
    decide

/-- C8 witness: a concrete `[upkeep]` tick from one remaining turn yields
three remaining turns. -/
theorem C8_witness :
    (weatherHandler (fun s => s)
        ⟨⟨"p1", ⟨"jolteon", none, none⟩, []⟩, ⟨"p2", ⟨"pelipper", none, none⟩, []⟩,
          "gen9", "raindance", 1, none⟩
        ["", "-weather", "RainDance", "[upkeep]"]).weather_turns_remaining = 3 :=
  (C8_weather_countdown (fun s => s)
      ⟨⟨"p1", ⟨"jolteon", none, none⟩, []⟩, ⟨"p2", ⟨"pelipper", none, none⟩, []⟩,
        "gen9", "raindance", 1, none⟩
      ["", "-weather", "RainDance", "[upkeep]"]).2.2 (by decide) rfl

/-! ### `update_battle` — claim C10 -/

/-- Slice of the battle state `update_battle` touches: the pending message
buffer `battle.msg_list` and the `battle.wait` flag. -/
structure UBBattle where
  msg_list : List String
  wait : Bool
deriving DecidableEq

/-- Loop body of `update_battle` over the `msg.split("\n")` lines.  The
parameter `reqProc` is the composite effect of `request(battle, split_msg)`
followed by `process_battle_updates(battle)` — the only handlers the function
can invoke, and only on the `request` path. -/
def updateBattleGo (reqProc : List String → UBBattle → UBBattle) :
    UBBattle → List String → UBBattle × Bool
  | b, [] => (b, false)
  | b, line :: rest =>
    if (strSplitOn line '|').length < 2 then updateBattleGo reqProc b rest
    else if strStrip ((strSplitOn line '|').getD 1 "") = "request" then
      let b2 := reqProc (strSplitOn line '|') b
      (b2, !b2.wait)
    else updateBattleGo reqProc { b with msg_list := b.msg_list ++ [line] } rest

/-- The function `update_battle(battle, msg)`: split the message into lines,
buffer non-`request` lines, and on a `request` line run the handlers and
return `not battle.wait`. -/
def update_battle (reqProc : List String → UBBattle → UBBattle) (battle : UBBattle)
    (msg : String) : UBBattle × Bool :=
  updateBattleGo reqProc battle (strSplitOn msg '\n')

/-- A protocol line whose second `|`-field, stripped, is `request`. -/
def isRequestLine (line : String) : Bool :=
  decide (2 ≤ (strSplitOn line '|').length) &&
    decide (strStrip ((strSplitOn line '|').getD 1 "") = "request")

/-- A line `update_battle` appends to the pending buffer: at least two
`|`-separated fields. -/
def keptLine (line : String) : Bool :=
  decide (2 ≤ (strSplitOn line '|').length)

/-- On a request-free line list the loop appends exactly the kept lines and
returns `false`, running no handler. -/
theorem updateBattleGo_no_request (reqProc : List String → UBBattle → UBBattle)
    (lines : List String) (b : UBBattle)
    (h : ∀ l ∈ lines, isRequestLine l = false) :
    updateBattleGo reqProc b lines =
      ({ b with msg_list := b.msg_list ++ lines.filter keptLine }, false) := by
  induction lines generalizing b with
  | nil => simp [updateBattleGo]
  | cons line rest ih =>
    have hline := h line (by simp)
    have hrest : ∀ l ∈ rest, isRequestLine l = false := fun l hl => h l (by simp [hl])
    unfold updateBattleGo
    by_cases hlen : (strSplitOn line '|').length < 2
    · rw [if_pos hlen, ih _ hrest]
      have hk : keptLine line = false := by
        simp only [keptLine, decide_eq_false_iff_not]
        omega
      simp [List.filter_cons, hk]
    · have hreq : ¬ strStrip ((strSplitOn line '|').getD 1 "") = "request" := by
        simp only [isRequestLine, Bool.and_eq_false_iff, decide_eq_false_iff_not] at hline
        rcases hline with h1 | h2
        · omega
        · exact h2
      rw [if_neg hlen, if_neg hreq, ih _ hrest]
      have hk : keptLine line = true := by
        simp only [keptLine, decide_eq_true_eq]
        omega
      simp [List.filter_cons, hk]

/-- With a request line present, the loop buffers the kept lines before it,
runs the handlers once on the request line, returns the negated wait flag, and
never reaches the lines after it. -/
theorem updateBattleGo_request (reqProc : List String → UBBattle → UBBattle)
    (pre : List String) (req : String) (post : List String) (b : UBBattle)
    (hpre : ∀ l ∈ pre, isRequestLine l = false) (hreq : isRequestLine req = true) :
    updateBattleGo reqProc b (pre ++ req :: post) =
      ((reqProc (strSplitOn req '|') { b with msg_list := b.msg_list ++ pre.filter keptLine }),
        !(reqProc (strSplitOn req '|')
            { b with msg_list := b.msg_list ++ pre.filter keptLine }).wait) := by
  induction pre generalizing b with
  | nil =>
    simp only [isRequestLine, Bool.and_eq_true, decide_eq_true_eq] at hreq
    obtain ⟨hlen, hname⟩ := hreq
    rw [List.nil_append]
    simp only [updateBattleGo]
    rw [if_neg (by omega), if_pos hname]
    simp
  | cons line rest ih =>
    have hline := hpre line (by simp)
    have hrest : ∀ l ∈ rest, isRequestLine l = false := fun l hl => hpre l (by simp [hl])
    rw [List.cons_append]
    simp only [updateBattleGo]
    by_cases hlen : (strSplitOn line '|').length < 2
    · rw [if_pos hlen, ih _ hrest]
      have hk : keptLine line = false := by
        simp only [keptLine, decide_eq_false_iff_not]
        omega
      simp [List.filter_cons, hk]
    · have hname : ¬ strStrip ((strSplitOn line '|').getD 1 "") = "request" := by
        simp only [isRequestLine, Bool.and_eq_false_iff, decide_eq_false_iff_not] at hline
        rcases hline with h1 | h2
        · omega
        · exact h2
      rw [if_neg hlen, if_neg hname, ih _ hrest]
      have hk : keptLine line = true := by
        simp only [keptLine, decide_eq_true_eq]
        omega
      simp [List.filter_cons, hk]

/-- C10: (i) for a message with no `request` line `update_battle` returns
`false` and appends exactly the lines with at least two `|`-separated fields
to the pending buffer — the result does not mention `reqProc`, so no handler
runs; (ii) with a `request` line present it returns the negation of the wait
flag of the state produced by the request handlers, and the lines after the
`request` line are discarded — the result does not mention `post`. -/
theorem C10_update_battle (reqProc : List String → UBBattle → UBBattle)
    (battle : UBBattle) (msg : String) :
    ((∀ l ∈ strSplitOn msg '\n', isRequestLine l = false) →
      update_battle reqProc battle msg =
        ({ battle with msg_list := battle.msg_list ++ (strSplitOn msg '\n').filter keptLine },
          false)) ∧
    (∀ pre req post, strSplitOn msg '\n' = pre ++ req :: post →
      (∀ l ∈ pre, isRequestLine l = false) → isRequestLine req = true →
      update_battle reqProc battle msg =
        ((reqProc (strSplitOn req '|')
            { battle with msg_list := battle.msg_list ++ pre.filter keptLine }),
          !(reqProc (strSplitOn req '|')
              { battle with msg_list := battle.msg_list ++ pre.filter keptLine }).wait)) := by
  constructor
  · intro h
    exact updateBattleGo_no_request reqProc _ battle h
  · intro pre req post hsplit hpre hreq
    unfold update_battle
    rw [hsplit]
    exact updateBattleGo_request reqProc pre req post battle hpre hreq

/-- C10 witness: a concrete two-line message whose second line is a `request`;
the first line is buffered, the suffix after the request is dropped, and the
negated post-handler wait flag is returned. -/
theorem C10_witness :
    update_battle (fun _ b => { b with wait := false }) ⟨[], true⟩
        "|move|p2a: Heatran|Earth Power\n|request|\nleftover" =
      (⟨["|move|p2a: Heatran|Earth Power"], false⟩, true) :=
  ((C10_update_battle (fun _ b => { b with wait := false }) ⟨[], true⟩
        "|move|p2a: Heatran|Earth Power\n|request|\nleftover").2
      ["|move|p2a: Heatran|Earth Power"] "|request|" ["leftover"]
      (by decide) (by decide) (by decide)).trans (by decide)

/-! ### The `move` handler's choice-item bookkeeping — claim C4 -/

/-- Value of `constants.CHOICE_ITEMS`.  Modelled from the spec glossary:
"Choice item. Items (Band/Specs/Scarf) that lock the holder into the first
move selected..." (the constants module is not among the embedded sources). -/
def CHOICE_ITEMS : List String := ["choiceband", "choicespecs", "choicescarf"]

/-- Move metadata `unlikely_to_have_choice_item` reads from `all_move_json`. -/
structure MoveJsonC where
  hasBoosts : Bool
  isStatus : Bool
deriving DecidableEq

/-- Slice of a Pokémon touched by the choice-item bookkeeping of `move`. -/
structure C4Pkmn where
  name : String
  item : String
  item_inferred : Bool
  can_have_choice_item : Bool
deriving DecidableEq

/-- Slice of a side: the active Pokémon plus `side.last_used_move` (which the
handler only updates after the choice-item bookkeeping has run). -/
structure C4Side where
  active : C4Pkmn
  last_used_move_pokemon_name : String
  last_used_move_move : String
deriving DecidableEq

/-- `unlikely_to_have_choice_item(move_name)`: a status move with a `boosts`
entry, or `substitute` / `roost` / `recover`. -/
def unlikely_to_have_choice_item (moveJson : String → Option MoveJsonC)
    (move_name : String) : Bool :=
  match moveJson move_name with
  | none => false
  | some mj =>
      if mj.hasBoosts && mj.isStatus then true
      else if move_name ∈ (["substitute", "roost", "recover"] : List String) then true
      else false

/-- The choice-item bookkeeping lines of the `move` handler: if the opponent's
same active Pokémon used a move different from the side's last used move, the
choice-item flag is dropped and an inferred choice item is reset to the
unknown sentinel; afterwards `unlikely_to_have_choice_item` may also drop the
flag.  The remainder of the handler does not touch these fields, and
`side.last_used_move` is only reassigned after these lines. -/
def moveChoiceStage1 (is_opp : Bool) (side : C4Side) (move_name : String) : C4Side :=
  if is_opp = true ∧ side.last_used_move_pokemon_name = side.active.name
      ∧ side.last_used_move_move ≠ move_name then
    if side.active.item ∈ CHOICE_ITEMS ∧ side.active.item_inferred = true then
      { side with active :=
          { side.active with can_have_choice_item := false, item := UNKNOWN_ITEM } }
    else { side with active := { side.active with can_have_choice_item := false } }
  else side

/-- Second stage: `unlikely_to_have_choice_item` may also drop the flag. -/
def moveChoiceStage2 (moveJson : String → Option MoveJsonC) (side : C4Side)
    (move_name : String) : C4Side :=
  if unlikely_to_have_choice_item moveJson move_name then
    { side with active := { side.active with can_have_choice_item := false } }
  else side

/-- Both bookkeeping stages in the handler's order.  (In the source the inner
item test reads the Pokémon after the flag was dropped, but the flag write
does not change `item`/`item_inferred`, so testing the pre-state is the same.) -/
def moveChoiceItemSlice (moveJson : String → Option MoveJsonC) (is_opp : Bool)
    (side : C4Side) (move_name : String) : C4Side :=
  moveChoiceStage2 moveJson (moveChoiceStage1 is_opp side move_name) move_name

/-- C4: on an opponent `move` event where the same active Pokémon uses a move
different from the side's last used move, `can_have_choice_item` is set to
`false`; the item is reset to the unknown sentinel exactly when it is a choice
item that was set by inference, and is untouched otherwise. -/
theorem C4_choice_item_reset (moveJson : String → Option MoveJsonC) (side : C4Side)
    (move_name : String)
    (hsame : side.last_used_move_pokemon_name = side.active.name)
    (hdiff : side.last_used_move_move ≠ move_name) :
    (moveChoiceItemSlice moveJson true side move_name).active.can_have_choice_item = false ∧
    (side.active.item ∈ CHOICE_ITEMS → side.active.item_inferred = true →
      (moveChoiceItemSlice moveJson true side move_name).active.item = UNKNOWN_ITEM) ∧
    (side.active.item ∉ CHOICE_ITEMS ∨ side.active.item_inferred = false →
      (moveChoiceItemSlice moveJson true side move_name).active.item = side.active.item) := by
  have hitem2 : (moveChoiceItemSlice moveJson true side move_name).active.item =
      (moveChoiceStage1 true side move_name).active.item := by
    unfold moveChoiceItemSlice moveChoiceStage2
    split <;> rfl
  have hflag1 : (moveChoiceStage1 true side move_name).active.can_have_choice_item = false := by
    unfold moveChoiceStage1
    rw [if_pos ⟨rfl, hsame, hdiff⟩]
    split <;> rfl
  refine ⟨?_, fun h1 h2 => ?_, fun h => ?_⟩
  · unfold moveChoiceItemSlice moveChoiceStage2
    split
    · rfl
    · exact hflag1
  · rw [hitem2]
    unfold moveChoiceStage1
    rw [if_pos ⟨rfl, hsame, hdiff⟩, if_pos ⟨h1, h2⟩]
  · rw [hitem2]
    unfold moveChoiceStage1
    rw [if_pos ⟨rfl, hsame, hdiff⟩]
    have hc : ¬ (side.active.item ∈ CHOICE_ITEMS ∧ side.active.item_inferred = true) := by
      rcases h with h | h
      · exact fun hx => h hx.1
      · exact fun hx => by rw [h] at hx; exact Bool.false_ne_true hx.2
    rw [if_neg hc]

/-- C4 witness: a Heatran whose choice scarf was inferred uses a second
distinct move; the item falls back to the unknown sentinel. -/
theorem C4_witness :
    (moveChoiceItemSlice (fun _ => none) true
        ⟨⟨"heatran", "choicescarf", true, true⟩, "heatran", "earthpower"⟩
        "flashcannon").active.item = UNKNOWN_ITEM :=
  (C4_choice_item_reset (fun _ => none)
      ⟨⟨"heatran", "choicescarf", true, true⟩, "heatran", "earthpower"⟩
      "flashcannon" rfl (by decide)).2.1 (by decide) rfl

/-! ### `check_heavydutyboots` — claim C5 -/

/-- Value of `constants.HEAVY_DUTY_BOOTS` (modelled; the constants module is
not among the embedded sources). -/
def HEAVY_DUTY_BOOTS : String := "heavydutyboots"

/-- Slice of a Pokémon read and written by `check_heavydutyboots`. -/
structure HDBPkmn where
  name : String
  item : String
  item_inferred : Bool
  ability : Option String
  status : Option String
  types : List String
  impossible_items : List String
deriving DecidableEq

/-- Slice of the opponent's side for `check_heavydutyboots`: protocol name
(`p1`/`p2`), active Pokémon and the relevant entry-hazard side conditions. -/
structure HDBSide where
  name : String
  active : HDBPkmn
  stealth_rock : Int
  spikes : Int
  toxic_spikes : Int
  sticky_web : Int
deriving DecidableEq

/-- Python `set.add` on the list-modelled `impossible_items`. -/
def addImpossibleItem (l : List String) (x : String) : List String :=
  if x ∈ l then l else l ++ [x]

/-- Scan for `|-damage|<side>…|…|[from] Stealth Rock`. -/
def tookStealthRockDamage (sideName : String) (lines : List String) : Bool :=
  lines.any fun line =>
    decide (4 < (strSplitOn line '|').length) &&
      ((strSplitOn line '|').getD 1 "" == "-damage") &&
      strStartsWith ((strSplitOn line '|').getD 2 "") sideName &&
      ((strSplitOn line '|').getD 4 "" == "[from] Stealth Rock")

/-- Scan for `|-damage|<side>…|…|[from] Spikes`. -/
def tookSpikesDamage (sideName : String) (lines : List String) : Bool :=
  lines.any fun line =>
    decide (4 < (strSplitOn line '|').length) &&
      ((strSplitOn line '|').getD 1 "" == "-damage") &&
      strStartsWith ((strSplitOn line '|').getD 2 "") sideName &&
      ((strSplitOn line '|').getD 4 "" == "[from] Spikes")

/-- Scan for a `|-status|<side>…|psn`/`tox` line, stopping at the first
`move`/`upkeep`/blank tag so later poisoning from other sources is ignored. -/
def tookToxicSpikesPoison (sideName : String) : List String → Bool
  | [] => false
  | line :: rest =>
      if (strSplitOn line '|').length < 2
          ∨ (strSplitOn line '|').getD 1 "" ∈ (["move", "upkeep", ""] : List String) then
        false
      else if (strSplitOn line '|').getD 1 "" = "-status"
          ∧ ((strSplitOn line '|').getD 3 "" = "psn" ∨ (strSplitOn line '|').getD 3 "" = "tox")
          ∧ strStartsWith ((strSplitOn line '|').getD 2 "") sideName then
        true
      else tookToxicSpikesPoison sideName rest

/-- Scan for `|-activate|<side>…|move: Sticky Web` (exactly four fields). -/
def affectedByStickyWeb (sideName : String) (lines : List String) : Bool :=
  lines.any fun line =>
    ((strSplitOn line '|').length == 4) &&
      ((strSplitOn line '|').getD 1 "" == "-activate") &&
      strStartsWith ((strSplitOn line '|').getD 2 "") sideName &&
      ((strSplitOn line '|').getD 3 "" == "move: Sticky Web")

/-- Set `item = heavydutyboots`, `item_inferred = True` on the active. -/
def hdbSetBoots (side : HDBSide) : HDBSide :=
  { side with active := { side.active with item := HEAVY_DUTY_BOOTS, item_inferred := true } }

/-- Add `heavydutyboots` to the active's `impossible_items`. -/
def hdbMarkImpossible (side : HDBSide) : HDBSide :=
  { side with active :=
      { side.active with impossible_items := addImpossibleItem side.active.impossible_items HEAVY_DUTY_BOOTS } }

/-- `check_heavydutyboots(battle, msg_lines)` restricted to the opponent's
side (its only caller passes `battle.opponent`).  `abilities name` is the
normalized `pokedex[name]["abilities"].values()` list;
`immunePoisonAbilities` is `constants.IMMUNE_TO_POISON_ABILITIES`. -/
def check_heavydutyboots (abilities : String → List String)
    (immunePoisonAbilities : List String) (generation : String) (side : HDBSide)
    (msg_lines : List String) : HDBSide :=
  if generation ∉ (["gen8", "gen9"] : List String) ∨ side.active.item ≠ UNKNOWN_ITEM
      ∨ "magicguard" ∈ abilities side.active.name then
    side
  else if 0 < side.stealth_rock then
    if tookStealthRockDamage side.name msg_lines = false then hdbSetBoots side
    else hdbMarkImpossible side
  else if 0 < side.spikes ∧ "levitate" ∉ abilities side.active.name
      ∧ "flying" ∉ side.active.types ∧ side.active.ability ≠ some "levitate" then
    if tookSpikesDamage side.name msg_lines = false then hdbSetBoots side
    else hdbMarkImpossible side
  else if 0 < side.toxic_spikes ∧ side.active.status = none
      ∧ "flying" ∉ side.active.types ∧ "poison" ∉ side.active.types
      ∧ "steel" ∉ side.active.types ∧ side.active.ability ≠ some "levitate"
      ∧ "levitate" ∉ abilities side.active.name
      ∧ side.active.ability ∉ immunePoisonAbilities.map some then
    if tookToxicSpikesPoison side.name msg_lines = false then hdbSetBoots side
    else hdbMarkImpossible side
  else if 0 < side.sticky_web ∧ "flying" ∉ side.active.types
      ∧ "levitate" ∉ abilities side.active.name then
    if affectedByStickyWeb side.name msg_lines = false then hdbSetBoots side
    else hdbMarkImpossible side
  else side

/-- C5: in gen8/gen9, with stealth rock up on the opponent's side, the active's
item unknown and no magic-guard possibility: absence of a
`-damage … [from] Stealth Rock` line for that side sets
`item = heavydutyboots` with `item_inferred`, while presence of one adds
`heavydutyboots` to `impossible_items` instead (leaving the item unknown). -/
theorem C5_heavydutyboots (abilities : String → List String)
    (immunePoisonAbilities : List String) (generation : String) (side : HDBSide)
    (msg_lines : List String)
    (hgen : generation ∈ (["gen8", "gen9"] : List String))
    (hitem : side.active.item = UNKNOWN_ITEM)
    (hmg : "magicguard" ∉ abilities side.active.name)
    (hsr : 0 < side.stealth_rock) :
    (tookStealthRockDamage side.name msg_lines = false →
      (check_heavydutyboots abilities immunePoisonAbilities generation side
          msg_lines).active.item = HEAVY_DUTY_BOOTS ∧
      (check_heavydutyboots abilities immunePoisonAbilities generation side
          msg_lines).active.item_inferred = true) ∧
    (tookStealthRockDamage side.name msg_lines = true →
      HEAVY_DUTY_BOOTS ∈ (check_heavydutyboots abilities immunePoisonAbilities generation side
          msg_lines).active.impossible_items ∧
      (check_heavydutyboots abilities immunePoisonAbilities generation side
          msg_lines).active.item = side.active.item) := by
  unfold check_heavydutyboots
  rw [if_neg (by push_neg; exact ⟨hgen, hitem, hmg⟩), if_pos hsr]
  constructor
  · intro hno
    rw [if_pos hno]
    exact ⟨rfl, rfl⟩
  · intro hyes
    rw [if_neg (by simp [hyes])]
    refine ⟨?_, rfl⟩
    simp only [hdbMarkImpossible, addImpossibleItem]
    split
    · assumption
    · simp

/-- C5 witness: a Corviknight switching in behind stealth rock with no
stealth-rock damage line gets heavy-duty boots inferred. -/
theorem C5_witness :
    (check_heavydutyboots (fun _ => ["pressure", "unnerve", "mirrorarmor"]) []
        "gen9" ⟨"p2", ⟨"corviknight", UNKNOWN_ITEM, false, none, none,
          ["flying", "steel"], []⟩, 1, 0, 0, 0⟩
        ["|turn|5"]).active.item = HEAVY_DUTY_BOOTS :=
  ((C5_heavydutyboots (fun _ => ["pressure", "unnerve", "mirrorarmor"]) []
      "gen9" ⟨"p2", ⟨"corviknight", UNKNOWN_ITEM, false, none, none,
        ["flying", "steel"], []⟩, 1, 0, 0, 0⟩
      ["|turn|5"] (by decide) rfl (by decide) (by decide)).1 (by decide)).1

/-! ### `check_opponent_hiddenpower` — claim C9 -/

/-- `check_opponent_hiddenpower(battle, msg_line)`: keep only the candidate
hidden-power types matching the observed effectiveness line.  The
type-effectiveness helpers `is_not_very_effective` / `is_super_effective` /
`is_neutral_effectiveness` live in `fp/helpers` (not among the embedded
sources) and are passed as the parameters `nve` / `se` / `ne`. -/
def check_opponent_hiddenpower (nve se ne : String → List String → Bool)
    (defender_types : List String) (poss : List String) (msg_line : String) :
    List String :=
  if (strSplitOn msg_line '|').getD 1 "" = "-resisted" then
    poss.filter (fun t => nve t defender_types)
  else if (strSplitOn msg_line '|').getD 1 "" = "-supereffective" then
    poss.filter (fun t => se t defender_types)
  else if (strSplitOn msg_line '|').getD 1 "" = "-damage" then
    poss.filter (fun t => ne t defender_types)
  else poss

/-- C9: the hidden-power possibility set only shrinks — for every follow-up
line the result is a sublist (hence subset, hence no larger) of the input —
and on the three recognized line kinds it retains exactly the candidate types
whose effectiveness against the bot's types matches the observed outcome. -/
theorem C9_hiddenpower_monotone (nve se ne : String → List String → Bool)
    (defender_types : List String) (poss : List String) (msg_line : String) :
    (check_opponent_hiddenpower nve se ne defender_types poss msg_line).Sublist poss ∧
    ((strSplitOn msg_line '|').getD 1 "" = "-resisted" →
      check_opponent_hiddenpower nve se ne defender_types poss msg_line =
        poss.filter (fun t => nve t defender_types)) ∧
    ((strSplitOn msg_line '|').getD 1 "" = "-supereffective" →
      check_opponent_hiddenpower nve se ne defender_types poss msg_line =
        poss.filter (fun t => se t defender_types)) ∧
    ((strSplitOn msg_line '|').getD 1 "" = "-damage" →
      check_opponent_hiddenpower nve se ne defender_types poss msg_line =
        poss.filter (fun t => ne t defender_types)) ∧
    ((strSplitOn msg_line '|').getD 1 "" ∉
        (["-resisted", "-supereffective", "-damage"] : List String) →
      check_opponent_hiddenpower nve se ne defender_types poss msg_line = poss) := by
  unfold check_opponent_hiddenpower
  refine ⟨?_, ?_, ?_, ?_, ?_⟩
  · split
    · exact List.filter_sublist poss
    · split
      · exact List.filter_sublist poss
      · split
        · exact List.filter_sublist poss
        · exact List.Sublist.refl poss
  · intro h
    rw [if_pos h]
  · intro h
    rw [if_neg (by rw [h]; decide), if_pos h]
  · intro h
    rw [if_neg (by rw [h]; decide), if_neg (by rw [h]; decide), if_pos h]
  · intro h
    have h1 : ¬ (strSplitOn msg_line '|').getD 1 "" = "-resisted" :=
      fun he => h (by rw [he]; decide)
    have h2 : ¬ (strSplitOn msg_line '|').getD 1 "" = "-supereffective" :=
      fun he => h (by rw [he]; decide)
    have h3 : ¬ (strSplitOn msg_line '|').getD 1 "" = "-damage" :=
      fun he => h (by rw [he]; decide)
    rw [if_neg h1, if_neg h2, if_neg h3]

/-- C9 witness: a `-resisted` line filters the candidate set through the
not-very-effective predicate. -/
theorem C9_witness :
    check_opponent_hiddenpower (fun t _ => t == "grass") (fun _ _ => true)
        (fun _ _ => true) ["water", "ground"] ["fire", "grass", "ice"]
        "|-resisted|p1a: Swampert" = ["grass"] :=
  ((C9_hiddenpower_monotone (fun t _ => t == "grass") (fun _ _ => true)
      (fun _ _ => true) ["water", "ground"] ["fire", "grass", "ice"]
      "|-resisted|p1a: Swampert").2.1 (by decide)).trans (by decide)

/-! ### Damage-roll reverse validation (`_do_check` /
`update_dataset_possibilities`) — claims C1 and C7 -/

/-- One candidate set (`PkmnSet`) from a dataset store; for the reverse
validation only its identity matters — the damage-roll service is abstracted
by per-candidate oracles. -/
structure PkmnSet where
  ability : String
  item : String
  nature : String
  evs : List ℕ
deriving DecidableEq

/-- `max_damage` selection in `_do_check`: `damage[1]` (the crit roll) on a
critical hit, `damage[0]` (the non-crit max) otherwise. -/
def rollMaxDamage (rolls : ℚ × ℚ) (crit : Bool) : ℚ :=
  if crit then rolls.2 else rolls.1

/-- The bounds test inside `_do_check`'s loop for one candidate:
`damage = [max_damage * 0.85, max_damage]` with `max_damage` the crit roll on
a crit and the non-crit max otherwise;
`lower_bound_violated = check_lower_bound and actual < damage[0] * 0.975 - 5`;
`upper_bound_violated = actual > damage[1] * 1.025 + 5`. -/
def damageBoundsViolated (check_lower_bound : Bool) (actual_damage_dealt : ℚ)
    (rolls : ℚ × ℚ) (crit : Bool) : Bool :=
  (check_lower_bound && decide (actual_damage_dealt < rollMaxDamage rolls crit * 0.85 * 0.975 - 5)) ||
    decide (actual_damage_dealt > rollMaxDamage rolls crit * 1.025 + 5)

/-- `_do_check(battle, battle_copy, possibilites, …)`.  `rollsOf p` is the
damage pair the external `poke_engine_get_damage_rolls` returns for candidate
`p` (index 0 the non-crit max, index 1 the crit roll); `actualOf p` is
`actual_damage_dealt` (recomputed per candidate on the `damage_received`
path, since `set_spread` can change `max_hp`).  Collecting
`indicies_to_remove` and popping them in reverse is the same as keeping the
filtered list; if every index would be removed and emptying is not allowed,
the function returns without removing anything. -/
def _do_check (rollsOf : PkmnSet → ℚ × ℚ) (actualOf : PkmnSet → ℚ) (crit : Bool)
    (check_lower_bound : Bool) (allow_emptying : Bool)
    (possibilites : List PkmnSet) : List PkmnSet :=
  if (possibilites.filter
        (fun p => !damageBoundsViolated check_lower_bound (actualOf p) (rollsOf p) crit)).isEmpty
      ∧ allow_emptying = false then
    possibilites
  else
    possibilites.filter
      (fun p => !damageBoundsViolated check_lower_bound (actualOf p) (rollsOf p) crit)

/-- The `check_lower_bound` computation of `update_dataset_possibilities`:
skip the lower bound when the observed percent damage is within `0.02` of the
defender's rounded current percent HP (the KO-truncation case). -/
def check_lower_bound_calc (percent_damage defender_hp defender_max_hp : ℚ) : Bool :=
  !(decide (|percent_damage - pyRound (defender_hp / defender_max_hp) 2| < 0.02))

/-- The three battle types of `BattleType`. -/
inductive BattleTypeE
  | random_battle
  | battle_factory
  | standard_battle
deriving DecidableEq

/-- Dataset-selection and dispatch part of `update_dataset_possibilities`
(after its early-out guard): random battles validate the random-battle sets
and battle factory the team datasets, both with `allow_emptying=False` and no
statistics pass; standard battles validate the team datasets with
`allow_emptying=True` and then the Smogon statistics sets with
`allow_emptying=False` ("never completely empty smogon stats"). -/
def update_dataset_possibilities (rollsOf : PkmnSet → ℚ × ℚ) (actualOf : PkmnSet → ℚ)
    (battle_type : BattleTypeE) (crit : Bool)
    (percent_damage defender_hp defender_max_hp : ℚ)
    (primary smogon : List PkmnSet) : List PkmnSet × Option (List PkmnSet) :=
  match battle_type with
  | .random_battle =>
      (_do_check rollsOf actualOf crit
        (check_lower_bound_calc percent_damage defender_hp defender_max_hp) false primary, none)
  | .battle_factory =>
      (_do_check rollsOf actualOf crit
        (check_lower_bound_calc percent_damage defender_hp defender_max_hp) false primary, none)
  | .standard_battle =>
      (_do_check rollsOf actualOf crit
        (check_lower_bound_calc percent_damage defender_hp defender_max_hp) true primary,
       some (_do_check rollsOf actualOf crit
        (check_lower_bound_calc percent_damage defender_hp defender_max_hp) false smogon))

/-- A guarded pass (`allow_emptying=False`) aborts when every candidate is
inconsistent, keeping the prior list. -/
theorem do_check_abort (rollsOf : PkmnSet → ℚ × ℚ) (actualOf : PkmnSet → ℚ)
    (crit clb : Bool) (poss : List PkmnSet)
    (h : poss.filter (fun p => !damageBoundsViolated clb (actualOf p) (rollsOf p) crit) = []) :
    _do_check rollsOf actualOf crit clb false poss = poss := by
  unfold _do_check
  rw [if_pos ⟨by rw [h]; rfl, rfl⟩]

/-- An unguarded pass (`allow_emptying=True`) is exactly the filter. -/
theorem do_check_allow (rollsOf : PkmnSet → ℚ × ℚ) (actualOf : PkmnSet → ℚ)
    (crit clb : Bool) (poss : List PkmnSet) :
    _do_check rollsOf actualOf crit clb true poss =
      poss.filter (fun p => !damageBoundsViolated clb (actualOf p) (rollsOf p) crit) := by
  unfold _do_check
  rw [if_neg (by simp)]

/-- When the pass does not abort, it is exactly the filter. -/
theorem do_check_not_abort (rollsOf : PkmnSet → ℚ × ℚ) (actualOf : PkmnSet → ℚ)
    (crit clb allow : Bool) (poss : List PkmnSet)
    (h : poss.filter (fun p => !damageBoundsViolated clb (actualOf p) (rollsOf p) crit) ≠ []
      ∨ allow = true) :
    _do_check rollsOf actualOf crit clb allow poss =
      poss.filter (fun p => !damageBoundsViolated clb (actualOf p) (rollsOf p) crit) := by
  unfold _do_check
  rcases h with h | h
  · rw [if_neg]
    intro hc
    exact h (List.isEmpty_iff.mp hc.1)
  · rw [h, if_neg (by simp)]

/-- A guarded pass never empties a non-empty list. -/
theorem do_check_guard_ne_nil (rollsOf : PkmnSet → ℚ × ℚ) (actualOf : PkmnSet → ℚ)
    (crit clb : Bool) (poss : List PkmnSet) (h : poss ≠ []) :
    _do_check rollsOf actualOf crit clb false poss ≠ [] := by
  by_cases hf : poss.filter (fun p => !damageBoundsViolated clb (actualOf p) (rollsOf p) crit) = []
  · rw [do_check_abort rollsOf actualOf crit clb poss hf]
    exact h
  · rw [do_check_not_abort rollsOf actualOf crit clb false poss (Or.inl hf)]
    exact hf

/-- Rounding half-to-even moves a rational by at most one half. -/
theorem abs_roundHalfEven_sub_le (q : ℚ) : |(roundHalfEven q : ℚ) - q| ≤ 1 / 2 := by
  have h0 : (0 : ℚ) ≤ q - ⌊q⌋ := by
    have := Int.floor_le q
    linarith
  have h1 : q - ⌊q⌋ < 1 := by
    have := Int.lt_floor_add_one q
    linarith
  unfold roundHalfEven
  split
  · rw [abs_le]
    constructor <;> linarith
  · split
    · rw [abs_le]
      push_cast
      constructor <;> linarith
    · split
      · rw [abs_le]
        constructor <;> linarith
      · rw [abs_le]
        push_cast
        constructor <;> linarith

/-- Python `round(x, n)` moves a rational by at most half an ulp. -/
theorem abs_pyRound_sub_le (x : ℚ) (n : ℕ) : |pyRound x n - x| ≤ 1 / (2 * 10 ^ n) := by
  have hpos : (0 : ℚ) < 10 ^ n := by positivity
  have h := abs_roundHalfEven_sub_le (x * 10 ^ n)
  unfold pyRound
  have heq : (roundHalfEven (x * 10 ^ n) : ℚ) / 10 ^ n - x
      = ((roundHalfEven (x * 10 ^ n) : ℚ) - x * 10 ^ n) / 10 ^ n := by
    field_simp
    ring
  rw [heq, abs_div, abs_of_pos hpos,
    show (1 : ℚ) / (2 * 10 ^ n) = (1 / 2) / 10 ^ n by ring]
  exact (div_le_div_iff_of_pos_right hpos).mpr h

/-- Rounding the same rational to 4 and to 2 decimal places gives values less
than `0.02` apart — so a KO-truncated observation always skips the lower
bound. -/
theorem pyRound_four_two_close (x : ℚ) : |pyRound x 4 - pyRound x 2| < 0.02 := by
  have h4 := abs_pyRound_sub_le x 4
  have h2 := abs_pyRound_sub_le x 2
  have htri := abs_sub_le (pyRound x 4) x (pyRound x 2)
  have h2s : |x - pyRound x 2| ≤ 1 / (2 * 10 ^ 2) := by
    rw [abs_sub_comm]
    exact h2
  have : |pyRound x 4 - pyRound x 2| ≤ 1 / (2 * 10 ^ 4) + 1 / (2 * 10 ^ 2) :=
    le_trans htri (add_le_add h4 h2s)
  have hlt : (1 : ℚ) / (2 * 10 ^ 4) + 1 / (2 * 10 ^ 2) < 0.02 := by norm_num
  linarith

/-- C7: a candidate is marked inconsistent exactly when the observed damage
exceeds `damage_max * 1.025 + 5` or the lower-bound check applies and the
observed damage is below `damage_max * 0.85 * 0.975 - 5`, with `damage_max`
the crit roll on a critical hit and the non-crit max otherwise; accordingly
(when the pass does not abort) a candidate survives `_do_check` iff it was
present and not outside the bounds; and when the defender was knocked to 0 HP
(the observed percent damage is its current percent HP rounded to 4 places)
the lower-bound check is skipped. -/
theorem C7_damage_bounds (rollsOf : PkmnSet → ℚ × ℚ) (actualOf : PkmnSet → ℚ)
    (crit clb allow : Bool) (poss : List PkmnSet) (p : PkmnSet)
    (hnoabort :
      poss.filter (fun q => !damageBoundsViolated clb (actualOf q) (rollsOf q) crit) ≠ []
        ∨ allow = true) :
    (damageBoundsViolated clb (actualOf p) (rollsOf p) crit = true ↔
      (actualOf p > rollMaxDamage (rollsOf p) crit * 1.025 + 5 ∨
        (clb = true ∧ actualOf p < rollMaxDamage (rollsOf p) crit * 0.85 * 0.975 - 5))) ∧
    (p ∈ _do_check rollsOf actualOf crit clb allow poss ↔
      (p ∈ poss ∧ ¬(actualOf p > rollMaxDamage (rollsOf p) crit * 1.025 + 5 ∨
        (clb = true ∧ actualOf p < rollMaxDamage (rollsOf p) crit * 0.85 * 0.975 - 5)))) ∧
    (∀ hp maxhp : ℚ, check_lower_bound_calc (pyRound (hp / maxhp) 4) hp maxhp = false) := by
  have hiff : ∀ q : PkmnSet, damageBoundsViolated clb (actualOf q) (rollsOf q) crit = true ↔
      (actualOf q > rollMaxDamage (rollsOf q) crit * 1.025 + 5 ∨
        (clb = true ∧ actualOf q < rollMaxDamage (rollsOf q) crit * 0.85 * 0.975 - 5)) := by
    intro q
    unfold damageBoundsViolated
    rw [Bool.or_eq_true, Bool.and_eq_true]
    rw [decide_eq_true_eq, decide_eq_true_eq, or_comm]
  refine ⟨hiff p, ?_, ?_⟩
  · rw [do_check_not_abort rollsOf actualOf crit clb allow poss hnoabort, List.mem_filter]
    constructor
    · rintro ⟨hmem, hkeep⟩
      refine ⟨hmem, fun hv => ?_⟩
      rw [Bool.not_eq_true'] at hkeep
      have htrue := (hiff p).mpr hv
      rw [hkeep] at htrue
      exact Bool.false_ne_true htrue
    · rintro ⟨hmem, hv⟩
      refine ⟨hmem, ?_⟩
      rw [Bool.not_eq_true']
      by_contra hne
      exact hv ((hiff p).mp (Bool.not_eq_false _ |>.mp hne))
  · intro hp maxhp
    unfold check_lower_bound_calc
    rw [decide_eq_true (pyRound_four_two_close (hp / maxhp))]
    rfl

/-- C7 witness: a surviving candidate — observed 90 against a non-crit max
roll of 100 lies inside `[77.875, 107.5]`. -/
theorem C7_witness :
    (⟨"lifeorb", "lifeorb", "jolly", []⟩ : PkmnSet) ∈
      _do_check (fun _ => (100, 120)) (fun _ => 90) false true false
        [⟨"lifeorb", "lifeorb", "jolly", []⟩] := by
  have hval : damageBoundsViolated true 90 ((100 : ℚ), (120 : ℚ)) false = false := by
    unfold damageBoundsViolated rollMaxDamage
    norm_num
  refine ((C7_damage_bounds (fun _ => (100, 120)) (fun _ => 90) false true false
      [⟨"lifeorb", "lifeorb", "jolly", []⟩] ⟨"lifeorb", "lifeorb", "jolly", []⟩
      (Or.inl ?_)).2.1).mpr ⟨by simp, ?_⟩
  · simp only [List.filter, hval]
    decide
  · unfold rollMaxDamage
    norm_num

/-- C1 (counterexample): in a standard battle the primary (team-datasets)
possibility list is run with `allow_emptying=True` and the Smogon statistics
list with `allow_emptying=False` — the opposite of the claim.  With an oracle
making every candidate inconsistent (observed 100 against max roll 0), the
primary list is fully emptied rather than kept, and the statistics list is
kept rather than emptied. -/
theorem C1_counterexample :
    (update_dataset_possibilities (fun _ => (0, 0)) (fun _ => 100) .standard_battle false
        1 0 100 [⟨"a", "i", "n", []⟩] [⟨"b", "j", "m", []⟩]).1 = [] ∧
    ([⟨"a", "i", "n", []⟩] : List PkmnSet) ≠ [] ∧
    (update_dataset_possibilities (fun _ => (0, 0)) (fun _ => 100) .standard_battle false
        1 0 100 [⟨"a", "i", "n", []⟩] [⟨"b", "j", "m", []⟩]).2 = some [⟨"b", "j", "m", []⟩] := by
  have hviol : ∀ clb : Bool, damageBoundsViolated clb 100 ((0 : ℚ), (0 : ℚ)) false = true := by
    intro clb
    unfold damageBoundsViolated rollMaxDamage
    simp only [Bool.or_eq_true, Bool.and_eq_true, decide_eq_true_eq]
    right
    norm_num
  refine ⟨?_, by decide, ?_⟩
  · show (_do_check (fun _ => (0, 0)) (fun _ => 100) false _ true [⟨"a", "i", "n", []⟩]) = []
    rw [do_check_allow]
    simp only [List.filter, hviol]
    rfl
  · show Option.some (_do_check (fun _ => (0, 0)) (fun _ => 100) false _ false
        [⟨"b", "j", "m", []⟩]) = some [⟨"b", "j", "m", []⟩]
    rw [do_check_abort]
    simp only [List.filter, hviol]
    rfl

/-- C1 (amended): the random-battle and battle-factory passes are guarded —
if every candidate in their primary list would be marked inconsistent the pass
aborts and removes none of them; in standard battles, however, the
team-datasets list runs with `allow_emptying=True` (it is exactly the filter
and may be fully emptied) while the Smogon statistics list is the guarded one,
never fully emptied by a pass. -/
theorem C1_primary_guard_amended (rollsOf : PkmnSet → ℚ × ℚ) (actualOf : PkmnSet → ℚ)
    (bt : BattleTypeE) (crit : Bool) (pd dhp dmhp : ℚ) (primary smogon : List PkmnSet) :
    ((bt = .random_battle ∨ bt = .battle_factory) →
      primary.filter (fun p => !damageBoundsViolated (check_lower_bound_calc pd dhp dmhp)
          (actualOf p) (rollsOf p) crit) = [] →
      (update_dataset_possibilities rollsOf actualOf bt crit pd dhp dmhp primary smogon).1
        = primary) ∧
    (bt = .standard_battle →
      (update_dataset_possibilities rollsOf actualOf bt crit pd dhp dmhp primary smogon).1
        = primary.filter (fun p => !damageBoundsViolated (check_lower_bound_calc pd dhp dmhp)
            (actualOf p) (rollsOf p) crit)) ∧
    (bt = .standard_battle → smogon ≠ [] →
      ∀ l, (update_dataset_possibilities rollsOf actualOf bt crit pd dhp dmhp primary smogon).2
          = some l → l ≠ []) := by
  refine ⟨?_, ?_, ?_⟩
  · rintro (rfl | rfl) hf
    · exact do_check_abort rollsOf actualOf crit _ primary hf
    · exact do_check_abort rollsOf actualOf crit _ primary hf
  · rintro rfl
    exact do_check_allow rollsOf actualOf crit _ primary
  · rintro rfl hs l hl
    simp only [update_dataset_possibilities, Option.some.injEq] at hl
    rw [← hl]
    exact do_check_guard_ne_nil rollsOf actualOf crit _ smogon hs

/-- C1 witness: a random-battle pass in which the only candidate is
inconsistent keeps the prior list. -/
theorem C1_witness :
    (update_dataset_possibilities (fun _ => (0, 0)) (fun _ => 100) .random_battle false
        1 0 100 [⟨"a", "i", "n", []⟩] []).1 = [⟨"a", "i", "n", []⟩] := by
  refine (C1_primary_guard_amended (fun _ => (0, 0)) (fun _ => 100) .random_battle false
      1 0 100 [⟨"a", "i", "n", []⟩] []).1 (Or.inl rfl) ?_
  have hviol : damageBoundsViolated (check_lower_bound_calc 1 0 100) 100
      ((0 : ℚ), (0 : ℚ)) false = true := by
    unfold damageBoundsViolated rollMaxDamage
    simp only [Bool.or_eq_true, Bool.and_eq_true, decide_eq_true_eq]
    right
    norm_num
  simp only [List.filter, hviol]
  rfl

/-! ### Zoroark disguise swap and `replace` rollback — claim C3 -/

/-- Slice of a Pokémon used by the Zoroark swap and the `replace` handler.
Moves are modelled by name (`Move` equality is by name). -/
structure ZPokemon where
  name : String
  hp : ℚ
  max_hp : ℚ
  hp_at_switch_in : ℚ
  status : Option String
  status_at_switch_in : Option String
  item : String
  boosts : List (String × Int)
  volatile_statuses : List String
  volatile_status_durations : List (String × Int)
  moves : List String
  moves_used_since_switch_in : List String
  terastallized : Bool
  tera_type : Option String
  zoroark_disguised_as : Option String
deriving DecidableEq

/-- A side as the Zoroark code sees it: the active Pokémon and the reserve. -/
structure ZSide where
  active : ZPokemon
  reserve : List ZPokemon
deriving DecidableEq

/-- `pkmn.remove_move(mv)` for each used move, in order. -/
def removeMoves (mvs moves : List String) : List String :=
  mvs.foldl (fun acc mv => acc.erase mv) moves

/-- `add_move(mv)` (append) for each used move the target does not know. -/
def addMovesIfAbsent (mvs moves : List String) : List String :=
  mvs.foldl (fun acc mv => if mv ∈ acc then acc else acc ++ [mv]) moves

/-- `_switch_active_with_zoroark_from_reserves(opponent_side, zoroark)`, the
Zoroark at reserve index `zidx` (the source passes the object, assumed to be
in the reserve; appending the apparent Pokémon and then removing the Zoroark
by value equals erasing at its index and appending). -/
def _switch_active_with_zoroark_from_reserves (side : ZSide) (zidx : ℕ) : ZSide :=
  match side.reserve.get? zidx with
  | none => side
  | some z =>
      let pkmn := side.active
      let z1 := { z with
        moves := addMovesIfAbsent pkmn.moves_used_since_switch_in z.moves,
        hp := z.max_hp * (pkmn.hp / pkmn.max_hp),
        boosts := pkmn.boosts,
        status := pkmn.status,
        volatile_statuses := pkmn.volatile_statuses,
        terastallized := pkmn.terastallized,
        tera_type := pkmn.tera_type,
        zoroark_disguised_as := some pkmn.name }
      let p1 := { pkmn with
        moves := removeMoves pkmn.moves_used_since_switch_in pkmn.moves,
        boosts := [],
        status := none,
        volatile_statuses := [],
        volatile_status_durations := [] }
      let p2 :=
        if p1.terastallized then { p1 with terastallized := false, tera_type := none } else p1
      { active := z1, reserve := (side.reserve.eraseIdx zidx) ++ [p2] }

/-- `illusion_end(battle, split_msg)` (the `replace` handler), on the side the
message names.  `zoroFromString` is `Pokemon.from_switch_string(split_msg[3])`
and `peq` is `Pokemon.__eq__` (both live in `fp/battle`, outside the embedded
sources).  On the rollback path the apparent Pokémon is appended to the
reserve and the revealed Zoroark is popped from its found index (append then
pop at an index inside the old list equals erase then append); the apparent
Pokémon's mutations after the append target that same appended object. -/
def illusion_end (peq : ZPokemon → ZPokemon → Bool) (side : ZSide) (is_opp : Bool)
    (zoroFromString : ZPokemon) : ZSide :=
  if is_opp = true ∧ side.active.name ∉ (["zoroark", "zoroarkhisui"] : List String)
      ∧ side.active.zoroark_disguised_as = none then
    let hp_percent := side.active.hp / side.active.max_hp
    let previous_boosts := side.active.boosts
    let previous_status := side.active.status
    let previous_item := side.active.item
    let apparent0 := { side.active with item := UNKNOWN_ITEM }
    let newActive0 :=
      match side.reserve.findIdx? (fun p => peq p zoroFromString) with
      | some i => side.reserve.getD i zoroFromString
      | none => zoroFromString
    let apparent1 := { apparent0 with
      moves := removeMoves apparent0.moves_used_since_switch_in apparent0.moves }
    let newActive1 := { newActive0 with
      moves := addMovesIfAbsent apparent0.moves_used_since_switch_in newActive0.moves }
    let apparent2 := { apparent1 with
      hp := (if apparent1.hp_at_switch_in ≠ apparent1.hp then apparent1.hp_at_switch_in
             else apparent1.hp),
      status := (if apparent1.status_at_switch_in ≠ apparent1.status then
                   apparent1.status_at_switch_in
                 else apparent1.status) }
    let newActive2 := { newActive1 with
      hp := hp_percent * newActive1.max_hp,
      boosts := previous_boosts,
      status := previous_status,
      item := previous_item,
      zoroark_disguised_as := none }
    match side.reserve.findIdx? (fun p => peq p zoroFromString) with
    | some i => { active := newActive2, reserve := (side.reserve.eraseIdx i) ++ [apparent2] }
    | none => { active := newActive2, reserve := side.reserve ++ [apparent2] }
  else
    { side with active := { side.active with zoroark_disguised_as := none } }

/-- C3 (counterexample): a disguise swap followed by a `replace` does NOT
restore the apparent Pokémon's at-switch-in HP and status.  A burned Gliscor
recorded at switch-in with 100/100 HP and status `brn` is swapped out as a
disguised Zoroark at 50 HP; the subsequent `replace` takes the no-rollback
path (the active is already Zoroark-family with the disguise marker set), so
the Gliscor in reserve keeps HP 50 ≠ 100 and status `none` ≠ `brn`. -/
theorem C3_counterexample :
    ((illusion_end (fun p q => p.name == q.name)
        (_switch_active_with_zoroark_from_reserves
          ⟨⟨"gliscor", 50, 100, 100, none, some "brn", "toxicorb", [], [], [],
              ["shadowball"], ["shadowball"], false, none, none⟩,
            [⟨"zoroark", 100, 100, 100, none, none, UNKNOWN_ITEM, [], [], [], [], [],
              false, none, none⟩]⟩ 0)
        true
        ⟨"zoroark", 100, 100, 100, none, none, UNKNOWN_ITEM, [], [], [], [], [],
          false, none, none⟩).reserve.map
        (fun a => (a.hp, a.hp_at_switch_in, a.status, a.status_at_switch_in)))
      = [((50 : ℚ), (100 : ℚ), (none : Option String), some "brn")] ∧
    ((50 : ℚ) ≠ (100 : ℚ)) ∧ ((none : Option String) ≠ some "brn") := by
  refine ⟨?_, by norm_num, by decide⟩
  norm_num [illusion_end, _switch_active_with_zoroark_from_reserves, removeMoves,
    addMovesIfAbsent, UNKNOWN_ITEM]

/-- C3 (amended): the `replace` rollback restores the apparent Pokémon's HP
and status to the recorded at-switch-in values only when no disguise swap was
performed — the active is not already Zoroark-family and carries no disguise
marker; after the rollback the apparent Pokémon (the last reserve entry) has
exactly its at-switch-in HP and status.  (After a prior swap the `replace`
only clears the marker, as the counterexample shows.) -/
theorem C3_replace_rollback_amended (peq : ZPokemon → ZPokemon → Bool) (side : ZSide)
    (z : ZPokemon)
    (hname : side.active.name ∉ (["zoroark", "zoroarkhisui"] : List String))
    (hmarker : side.active.zoroark_disguised_as = none) :
    ∃ a, (illusion_end peq side true z).reserve.getLast? = some a ∧
      a.hp = side.active.hp_at_switch_in ∧ a.status = side.active.status_at_switch_in := by
  unfold illusion_end
  rw [if_pos ⟨rfl, hname, hmarker⟩]
  cases hidx : side.reserve.findIdx? (fun p => peq p z) with
  | none =>
      simp only [hidx]
      refine ⟨_, List.getLast?_concat _, ?_, ?_⟩
      · by_cases h : side.active.hp_at_switch_in ≠ side.active.hp
        · rw [if_pos h]
        · rw [if_neg h]
          exact (not_ne_iff.mp h).symm
      · by_cases h : side.active.status_at_switch_in ≠ side.active.status
        · rw [if_pos h]
        · rw [if_neg h]
          exact (not_ne_iff.mp h).symm
  | some i =>
      simp only [hidx]
      refine ⟨_, List.getLast?_concat _, ?_, ?_⟩
      · by_cases h : side.active.hp_at_switch_in ≠ side.active.hp
        · rw [if_pos h]
        · rw [if_neg h]
          exact (not_ne_iff.mp h).symm
      · by_cases h : side.active.status_at_switch_in ≠ side.active.status
        · rw [if_pos h]
        · rw [if_neg h]
          exact (not_ne_iff.mp h).symm

/-- C3 witness: a concrete no-swap `replace` restores the apparent Pokémon's
at-switch-in HP (100) and status (`brn`). -/
theorem C3_witness :
    ((illusion_end (fun p q => p.name == q.name)
        ⟨⟨"gliscor", 50, 100, 100, none, some "brn", "toxicorb", [], [], [],
            ["shadowball"], ["shadowball"], false, none, none⟩,
          [⟨"zoroark", 100, 100, 100, none, none, UNKNOWN_ITEM, [], [], [], [], [],
            false, none, none⟩]⟩ true
        ⟨"zoroark", 100, 100, 100, none, none, UNKNOWN_ITEM, [], [], [], [], [],
          false, none, none⟩).reserve.getLast?).map (fun a => (a.hp, a.status))
      = some ((100 : ℚ), some "brn") := by
  obtain ⟨a, ha, h1, h2⟩ := C3_replace_rollback_amended (fun p q => p.name == q.name)
    ⟨⟨"gliscor", 50, 100, 100, none, some "brn", "toxicorb", [], [], [],
        ["shadowball"], ["shadowball"], false, none, none⟩,
      [⟨"zoroark", 100, 100, 100, none, none, UNKNOWN_ITEM, [], [], [], [], [],
        false, none, none⟩]⟩
    ⟨"zoroark", 100, 100, 100, none, none, UNKNOWN_ITEM, [], [], [], [], [],
      false, none, none⟩ (by decide) rfl
  rw [ha, Option.map_some', h1, h2]

/-! ### `check_speed_ranges` — claim C2 -/

/-- Value of `constants.GRASSY_TERRAIN` (modelled, see `SUN`). -/
def GRASSY_TERRAIN : String := "grassyterrain"

/-- Value of `constants.ELECTRIC_TERRAIN` (modelled, see `SUN`). -/
def ELECTRIC_TERRAIN : String := "electricterrain"

/-- Value of `constants.PARALYZED` (modelled, see `SUN`): the protocol status
token. -/
def PARALYZED : String := "par"

/-- Move metadata the speed-range check reads from `all_move_json`. -/
structure SCMoveJson where
  id : String
  priority : Int
  isStatus : Bool
deriving DecidableEq

/-- Slice of a Pokémon for the speed-range check. -/
structure SCPkmn where
  name : String
  item : Option String
  ability : Option String
  status : Option String
  boosts_spe : Int
  stats_spe : Int
  volatile_statuses : List String
  speed_range : Int × Int
deriving DecidableEq

/-- Slice of the bot's side: protocol name, active Pokémon, tailwind, and the
last selected move. -/
structure SCUserSide where
  name : String
  active : SCPkmn
  tailwind : Bool
  last_selected_move : String
deriving DecidableEq

/-- Slice of the opponent's side (its active slot may be empty). -/
structure SCOppSide where
  name : String
  active : Option SCPkmn
  tailwind : Bool
deriving DecidableEq

/-- Slice of the battle for the speed-range check. -/
structure SCBattle where
  user : SCUserSide
  opponent : SCOppSide
  generation : String
  weather : Option String
  field : Option String
  trick_room : Bool
deriving DecidableEq

/-- `can_have_priority_modified(battle, pokemon, move_name)`: prankster
possibility, grassy glide under grassy terrain, or mycelium might with a
status move.  `abilities name` is the normalized pokedex ability list. -/
def can_have_priority_modified (moveJson : String → Option SCMoveJson)
    (abilities : String → List String) (battle : SCBattle) (pokemon : SCPkmn)
    (move_name : String) : Bool :=
  decide ("prankster" ∈ abilities pokemon.name) ||
    (move_name == "grassyglide" && battle.field == some GRASSY_TERRAIN) ||
    (match moveJson move_name with
     | some mj => mj.isStatus && decide ("myceliummight" ∈ abilities pokemon.name)
     | none => false)

/-- `can_have_speed_modified(battle, pokemon)`: a conditional speed-multiplier
ability could be active (unburden with a consumed item, weather or terrain
speed abilities with the matching condition up, quick feet under paralysis). -/
def can_have_speed_modified (abilities : String → List String) (battle : SCBattle)
    (pokemon : SCPkmn) : Bool :=
  (pokemon.item == none && decide ("unburden" ∈ abilities pokemon.name)) ||
    (battle.weather == some RAIN && pokemon.ability == none &&
      decide ("swiftswim" ∈ abilities pokemon.name)) ||
    (battle.weather == some SUN && pokemon.ability == none &&
      decide ("chlorophyll" ∈ abilities pokemon.name)) ||
    (battle.weather == some SAND && pokemon.ability == none &&
      decide ("sandrush" ∈ abilities pokemon.name)) ||
    (decide (battle.weather ∈ HAIL_OR_SNOW.map some) && pokemon.ability == none &&
      decide ("slushrush" ∈ abilities pokemon.name)) ||
    (battle.field == some ELECTRIC_TERRAIN && pokemon.ability == none &&
      decide ("surgesurfer" ∈ abilities pokemon.name)) ||
    (pokemon.status == some PARALYZED && pokemon.ability == none &&
      decide ("quickfeet" ∈ abilities pokemon.name))

/-- A line that disqualifies the whole turn from speed inference: a switch, a
`cant`, a confusion self-hit activation, a custap berry, a quick claw or a
quick draw mention. -/
def speedCheckSkipLine (normalizeName : String → String) (ln : String) : Bool :=
  strStartsWith ln "|switch|" || strStartsWith ln "|cant|" ||
    (strStartsWith ln "|-activate|" && strEndsWith ln "confusion") ||
    (strStartsWith ln "|-enditem|" &&
      (strContainsSub (normalizeName ln) "custapberry" || strContainsSub ln "Custap Berry")) ||
    strContainsSub (normalizeName ln) "quickclaw" || strContainsSub ln "Quick Claw" ||
    strContainsSub (normalizeName ln) "quickdraw" || strContainsSub ln "Quick Draw"

/-- Default move record for an unknown move name: `{ID: "unknown",
PRIORITY: 0}`. -/
def scDfltMove : String × SCMoveJson :=
  ("", ⟨"unknown", 0, false⟩)

/-- `get_move_information(m)`: the user field and the move-json entry of a
`|move|` line, with the unknown-move fallback. -/
def get_move_information (normalizeName : String → String)
    (moveJson : String → Option SCMoveJson) (m : String) : String × SCMoveJson :=
  match moveJson (normalizeName ((strSplitOn m '|').getD 3 "")) with
  | some mj => ((strSplitOn m '|').getD 2 "", mj)
  | none => ((strSplitOn m '|').getD 2 "", (⟨"unknown", 0, false⟩ : SCMoveJson))

/-- The parsed `|move|` lines of the turn. -/
def speedCheckMoves (normalizeName : String → String)
    (moveJson : String → Option SCMoveJson) (msg_lines : List String) :
    List (String × SCMoveJson) :=
  (msg_lines.filter (fun m => strStartsWith m "|move|")).map
    (get_move_information normalizeName moveJson)

/-- Condition under which a single opponent move is augmented with the bot's
last selected move: the single move is the opponent's and is not pursuit. -/
def speedCheckAugCond (battle : SCBattle) (moves0 : List (String × SCMoveJson)) : Bool :=
  strStartsWith (moves0.getD 0 scDfltMove).1 battle.opponent.name &&
    ((moves0.getD 0 scDfltMove).2.id != "pursuit")

/-- The move list after the single-opponent-move augmentation (the appended
pseudo-entry carries the opponent-name prefix exactly as the source builds
it; only its move entry is read afterwards). -/
def movesAugmented (normalizeName : String → String)
    (moveJson : String → Option SCMoveJson) (battle : SCBattle)
    (msg_lines : List String) : List (String × SCMoveJson) :=
  if (speedCheckMoves normalizeName moveJson msg_lines).length = 1
      ∧ speedCheckAugCond battle (speedCheckMoves normalizeName moveJson msg_lines) = true then
    speedCheckMoves normalizeName moveJson msg_lines ++
      [(battle.opponent.name ++ "a: " ++ battle.user.active.name,
        ((moveJson (normalizeName battle.user.last_selected_move)).getD
          (⟨"unknown", 0, false⟩ : SCMoveJson)))]
  else speedCheckMoves normalizeName moveJson msg_lines

/-- The `speed_threshold` computation: the bot's boosted speed over the
opponent's boost multiplier, then the sequence of `int(...)` corrections the
source applies (opponent protosynthesis-spe ÷1.5, opponent tailwind ÷2, bot
tailwind ×2, paralysis ×4/÷4 in gen4-6 and ×2/÷2 otherwise, bot choice scarf
×1.5, bot protosynthesis-spe ×1.5).  (The source's dead assignment of a stats
dict into `battle_copy.user.active.status` touches only the copy and is not
read; it is not ported.) -/
def speedThresholdSteps (boostMult : Int → ℚ) (battle : SCBattle) (opp : SCPkmn) : Int :=
  let t0 : Int := pyInt (boostMult battle.user.active.boosts_spe
    * (battle.user.active.stats_spe : ℚ) / boostMult opp.boosts_spe)
  let t1 := if "protosynthesisspe" ∈ opp.volatile_statuses then pyInt ((t0 : ℚ) / 1.5) else t0
  let t2 := if battle.opponent.tailwind then pyInt ((t1 : ℚ) / 2) else t1
  let t3 := if battle.user.tailwind then pyInt ((t2 : ℚ) * 2) else t2
  let t4 :=
    if opp.status = some PARALYZED then
      if battle.generation ∈ (["gen4", "gen5", "gen6"] : List String) then pyInt ((t3 : ℚ) * 4)
      else pyInt ((t3 : ℚ) * 2)
    else t3
  let t5 :=
    if battle.user.active.status = some PARALYZED then
      if battle.generation ∈ (["gen4", "gen5", "gen6"] : List String) then pyInt ((t4 : ℚ) / 4)
      else pyInt ((t4 : ℚ) / 2)
    else t4
  let t6 := if battle.user.active.item = some "choicescarf" then pyInt ((t5 : ℚ) * 1.5) else t5
  if "protosynthesisspe" ∈ battle.user.active.volatile_statuses then pyInt ((t6 : ℚ) * 1.5)
  else t6

/-- The threshold as the claim words it: identical corrections, but with the
×1.5 (and ÷1.5 on the opponent's side) correction triggered by a
protosynthesis-spe *or quarkdrive-spe* volatile.  This definition follows the
spec's words, to be compared with `speedThresholdSteps` from the source. -/
def speedThresholdClaimed (boostMult : Int → ℚ) (battle : SCBattle) (opp : SCPkmn) : Int :=
  let t0 : Int := pyInt (boostMult battle.user.active.boosts_spe
    * (battle.user.active.stats_spe : ℚ) / boostMult opp.boosts_spe)
  let t1 :=
    if "protosynthesisspe" ∈ opp.volatile_statuses ∨ "quarkdrivespe" ∈ opp.volatile_statuses then
      pyInt ((t0 : ℚ) / 1.5)
    else t0
  let t2 := if battle.opponent.tailwind then pyInt ((t1 : ℚ) / 2) else t1
  let t3 := if battle.user.tailwind then pyInt ((t2 : ℚ) * 2) else t2
  let t4 :=
    if opp.status = some PARALYZED then
      if battle.generation ∈ (["gen4", "gen5", "gen6"] : List String) then pyInt ((t3 : ℚ) * 4)
      else pyInt ((t3 : ℚ) * 2)
    else t3
  let t5 :=
    if battle.user.active.status = some PARALYZED then
      if battle.generation ∈ (["gen4", "gen5", "gen6"] : List String) then pyInt ((t4 : ℚ) / 4)
      else pyInt ((t4 : ℚ) / 2)
    else t4
  let t6 := if battle.user.active.item = some "choicescarf" then pyInt ((t5 : ℚ) * 1.5) else t5
  if "protosynthesisspe" ∈ battle.user.active.volatile_statuses
      ∨ "quarkdrivespe" ∈ battle.user.active.volatile_statuses then
    pyInt ((t6 : ℚ) * 1.5)
  else t6

/-- Write a new speed range onto the opponent's active Pokémon. -/
def setOppSpeedRange (battle : SCBattle) (opp : SCPkmn) (r : Int × Int) : SCBattle :=
  { battle with opponent := { battle.opponent with active := some { opp with speed_range := r } } }

/-- The final bound assignment: in trick room the slower Pokémon moves first,
so the direction flips; moving first caps the opponent's max, moving second
raises its min. -/
def speedRangeUpdate (boostMult : Int → ℚ) (battle : SCBattle) (opp : SCPkmn)
    (bot_went_first : Bool) : SCBattle :=
  if (if battle.trick_room then !bot_went_first else bot_went_first) = true then
    setOppSpeedRange battle opp
      (opp.speed_range.1, min opp.speed_range.2 (speedThresholdSteps boostMult battle opp))
  else
    setOppSpeedRange battle opp
      (max opp.speed_range.1 (speedThresholdSteps boostMult battle opp), opp.speed_range.2)

/-- The bound assignment as the claim words it, with `speedThresholdClaimed`. -/
def speedRangeUpdateClaimed (boostMult : Int → ℚ) (battle : SCBattle) (opp : SCPkmn)
    (bot_went_first : Bool) : SCBattle :=
  if (if battle.trick_room then !bot_went_first else bot_went_first) = true then
    setOppSpeedRange battle opp
      (opp.speed_range.1, min opp.speed_range.2 (speedThresholdClaimed boostMult battle opp))
  else
    setOppSpeedRange battle opp
      (max opp.speed_range.1 (speedThresholdClaimed boostMult battle opp), opp.speed_range.2)

/-- `check_speed_ranges(battle, msg_lines)`: the skip scan, the move-count
gate, the single-move augmentation, the equal-priority/encore gate, the
ability/item guard, and the bound update. -/
def check_speed_ranges (normalizeName : String → String)
    (moveJson : String → Option SCMoveJson) (abilities : String → List String)
    (boostMult : Int → ℚ) (battle : SCBattle) (msg_lines : List String) : SCBattle :=
  if msg_lines.any (speedCheckSkipLine normalizeName) = true then battle
  else if ¬((speedCheckMoves normalizeName moveJson msg_lines).length = 1
      ∨ (speedCheckMoves normalizeName moveJson msg_lines).length = 2) then battle
  else if (speedCheckMoves normalizeName moveJson msg_lines).length = 1
      ∧ speedCheckAugCond battle (speedCheckMoves normalizeName moveJson msg_lines) = false then
    battle
  else if ((movesAugmented normalizeName moveJson battle msg_lines).getD 0 scDfltMove).2.priority
        ≠ ((movesAugmented normalizeName moveJson battle msg_lines).getD 1 scDfltMove).2.priority
      ∨ ((movesAugmented normalizeName moveJson battle msg_lines).getD 0 scDfltMove).2.id
        = "encore" then
    battle
  else
    match battle.opponent.active with
    | none => battle
    | some opp =>
        if opp.item = some "choicescarf"
            ∨ can_have_speed_modified abilities battle opp = true
            ∨ (strStartsWith ((movesAugmented normalizeName moveJson battle msg_lines).getD 0
                  scDfltMove).1 battle.user.name = false
                ∧ can_have_priority_modified moveJson abilities battle opp
                  ((movesAugmented normalizeName moveJson battle msg_lines).getD 0
                    scDfltMove).2.id = true)
            ∨ (strStartsWith ((movesAugmented normalizeName moveJson battle msg_lines).getD 0
                  scDfltMove).1 battle.user.name = true
                ∧ can_have_priority_modified moveJson abilities battle battle.user.active
                  ((movesAugmented normalizeName moveJson battle msg_lines).getD 0
                    scDfltMove).2.id = true) then
          battle
        else
          speedRangeUpdate boostMult battle opp
            (strStartsWith ((movesAugmented normalizeName moveJson battle msg_lines).getD 0
              scDfltMove).1 battle.user.name)

/-- Without a quarkdrive-spe volatile on either active, the claim's threshold
formula and the source's computation agree. -/
theorem speedThreshold_eq_claimed (boostMult : Int → ℚ) (battle : SCBattle) (opp : SCPkmn)
    (hu : "quarkdrivespe" ∉ battle.user.active.volatile_statuses)
    (ho : "quarkdrivespe" ∉ opp.volatile_statuses) :
    speedThresholdClaimed boostMult battle opp = speedThresholdSteps boostMult battle opp := by
  unfold speedThresholdClaimed speedThresholdSteps
  simp only [or_iff_left ho, or_iff_left hu]

/-- C2 (amended): for every turn that passes the speed-inference gates (no
skip line, one or two parsed moves with the single-move augmentation
applicable, equal priorities, no encore, an opponent active without a known
choice scarf and no possible speed- or priority-modifying ability), the
resulting speed range is the bound update with the claim's threshold formula
in which only a protosynthesis-spe volatile gives the ×1.5 (resp. ÷1.5)
correction — a quarkdrive-spe volatile is ignored: if the bot moved first the
opponent's `speed_range.max` is lowered to at most the threshold, otherwise
`speed_range.min` is raised to at least it, and in trick room the bound
assignment is inverted. -/
theorem C2_speed_threshold_amended (normalizeName : String → String)
    (moveJson : String → Option SCMoveJson) (abilities : String → List String)
    (boostMult : Int → ℚ) (battle : SCBattle) (msg_lines : List String) (opp : SCPkmn)
    (hskip : msg_lines.any (speedCheckSkipLine normalizeName) = false)
    (hlen : (speedCheckMoves normalizeName moveJson msg_lines).length = 1
      ∨ (speedCheckMoves normalizeName moveJson msg_lines).length = 2)
    (haug : ¬((speedCheckMoves normalizeName moveJson msg_lines).length = 1
      ∧ speedCheckAugCond battle (speedCheckMoves normalizeName moveJson msg_lines) = false))
    (hprio : ¬(((movesAugmented normalizeName moveJson battle msg_lines).getD 0
          scDfltMove).2.priority
        ≠ ((movesAugmented normalizeName moveJson battle msg_lines).getD 1 scDfltMove).2.priority
      ∨ ((movesAugmented normalizeName moveJson battle msg_lines).getD 0 scDfltMove).2.id
        = "encore"))
    (hopp : battle.opponent.active = some opp)
    (hguard : ¬(opp.item = some "choicescarf"
      ∨ can_have_speed_modified abilities battle opp = true
      ∨ (strStartsWith ((movesAugmented normalizeName moveJson battle msg_lines).getD 0
            scDfltMove).1 battle.user.name = false
          ∧ can_have_priority_modified moveJson abilities battle opp
            ((movesAugmented normalizeName moveJson battle msg_lines).getD 0
              scDfltMove).2.id = true)
      ∨ (strStartsWith ((movesAugmented normalizeName moveJson battle msg_lines).getD 0
            scDfltMove).1 battle.user.name = true
          ∧ can_have_priority_modified moveJson abilities battle battle.user.active
            ((movesAugmented normalizeName moveJson battle msg_lines).getD 0
              scDfltMove).2.id = true)))
    (hu : "quarkdrivespe" ∉ battle.user.active.volatile_statuses)
    (ho : "quarkdrivespe" ∉ opp.volatile_statuses) :
    check_speed_ranges normalizeName moveJson abilities boostMult battle msg_lines =
      speedRangeUpdateClaimed boostMult battle opp
        (strStartsWith ((movesAugmented normalizeName moveJson battle msg_lines).getD 0
          scDfltMove).1 battle.user.name) := by
  unfold check_speed_ranges
  rw [if_neg (by rw [hskip]; exact Bool.false_ne_true), if_neg (not_not_intro hlen),
    if_neg haug, if_neg hprio]
  simp only [hopp]
  rw [if_neg hguard]
  unfold speedRangeUpdate speedRangeUpdateClaimed
  rw [speedThreshold_eq_claimed boostMult battle opp hu ho]

/-- Concrete move table for the C2 scenario. -/
def c2MoveJson : String → Option SCMoveJson := fun s =>
  if s = "earthpower" then some ⟨"earthpower", 0, false⟩
  else if s = "thunderbolt" then some ⟨"thunderbolt", 0, false⟩
  else none

/-- Concrete turn: the opponent's Heatran moves before the bot's Jolteon,
both with priority-0 moves. -/
def c2Lines : List String :=
  ["|move|p2a: heatran|earthpower|p1a: jolteon",
   "|move|p1a: jolteon|thunderbolt|p2a: heatran"]

/-- The bot's Jolteon carrying a quarkdrive-spe volatile. -/
def c2UserQuark : SCPkmn :=
  ⟨"jolteon", some "leftovers", none, none, 0, 100, ["quarkdrivespe"], (0, 10000)⟩

/-- The bot's Jolteon with no speed volatiles. -/
def c2UserPlain : SCPkmn :=
  ⟨"jolteon", some "leftovers", none, none, 0, 100, [], (0, 10000)⟩

/-- The opponent's Heatran. -/
def c2Opp : SCPkmn :=
  ⟨"heatran", none, none, none, 0, 100, [], (0, 10000)⟩

/-- Battle with the quarkdrive-spe volatile on the bot's active. -/
def c2BattleQuark : SCBattle :=
  ⟨⟨"p1", c2UserQuark, false, "thunderbolt"⟩, ⟨"p2", some c2Opp, false⟩, "gen9",
    none, none, false⟩

/-- The same battle without the volatile. -/
def c2BattlePlain : SCBattle :=
  ⟨⟨"p1", c2UserPlain, false, "thunderbolt"⟩, ⟨"p2", some c2Opp, false⟩, "gen9",
    none, none, false⟩

/-- C2 (counterexample): on a qualifying two-move turn in which the bot's
active carries a quarkdrive-spe volatile, the source raises the opponent's
minimum speed only to `100` (it never reads quarkdrive-spe), while the
claim's threshold — ×1.5 for a protosynthesis-spe *or quarkdrive-spe*
volatile — is `150`. -/
theorem C2_counterexample :
    (check_speed_ranges (fun s => s) c2MoveJson (fun _ => []) (fun _ => 1)
        c2BattleQuark c2Lines).opponent.active
      = some { c2Opp with speed_range := ((100 : Int), (10000 : Int)) } ∧
    speedThresholdClaimed (fun _ => 1) c2BattleQuark c2Opp = 150 ∧
    ((100 : Int) ≠ 150) := by
  refine ⟨?_, ?_, by decide⟩
  · unfold check_speed_ranges
    rw [if_neg (by decide), if_neg (by decide), if_neg (by decide), if_neg (by decide)]
    have hopp : c2BattleQuark.opponent.active = some c2Opp := rfl
    simp only [hopp]
    rw [if_neg (by decide)]
    unfold speedRangeUpdate setOppSpeedRange
    rw [if_neg (by decide)]
    have hth : speedThresholdSteps (fun _ => 1) c2BattleQuark c2Opp = 100 := by
      unfold speedThresholdSteps c2BattleQuark c2UserQuark c2Opp
      simp +decide only []
      norm_num [pyInt]
    rw [hth]
    decide
  · unfold speedThresholdClaimed c2BattleQuark c2UserQuark c2Opp
    simp +decide only []
    norm_num [pyInt]

/-- C2 witness: the amended theorem applied to the same turn without the
quarkdrive-spe volatile — the update is exactly the claimed-formula update. -/
theorem C2_witness :
    check_speed_ranges (fun s => s) c2MoveJson (fun _ => []) (fun _ => 1)
        c2BattlePlain c2Lines
      = speedRangeUpdateClaimed (fun _ => 1) c2BattlePlain c2Opp false := by
  have h := C2_speed_threshold_amended (fun s => s) c2MoveJson (fun _ => []) (fun _ => 1)
    c2BattlePlain c2Lines c2Opp (by decide) (by decide) (by decide) (by decide) rfl
    (by decide) (by decide) (by decide)
  have hb : strStartsWith ((movesAugmented (fun s => s) c2MoveJson c2BattlePlain
      c2Lines).getD 0 scDfltMove).1 c2BattlePlain.user.name = false := by decide
  rw [hb] at h
  exact h

end FoulPlay
